import Mathlib

/-!
# Verification of the ez-ptc restricted execution engine

A shallow embedding of `src/ez_ptc/executor.py`: the import guard
(`_safe_import`), the execution-result record (`ExecutionResult` and its
`to_string` projection), the call-logging tool wrapper
(`_make_tool_wrapper`), the script splitter and the execution supervisor
(`execute_code`).

Python values flowing through the engine are modelled by the inductive
`Value`; scripts submitted to `exec`/`eval` are modelled by a small
statement/expression language (`Stmt`/`Expr`) covering the script forms
the engine's observable contract is stated over: printing, assignments,
variable references, capability calls, imports, raised faults, and
divergence (a script form that never terminates).  Module objects bound
into the namespace (`json`, `math`, ...) are not representable as
`Value`s and no claim depends on them, so the namespace starts from the
tool bindings alone; the builtin allowlist is likewise per-execution
fixed data the scripts here do not inspect.
-/

set_option autoImplicit false

namespace EzPtc

/-- Python values that the engine's observable state can hold. -/
inductive Value where
  | vnone
  | vint (i : Int)
  | vstr (s : String)
  | vbool (b : Bool)
  deriving DecidableEq, Repr

/-- Python `repr` restricted to the values of `Value` (string escaping is
not modelled; none of the scripts considered contain quotes). -/
def reprValue : Value → String
  | .vnone => "None"
  | .vint i => toString i
  | .vstr s => "\x27" ++ s ++ "\x27"
  | .vbool b => if b then "True" else "False"

/-- A Python exception: its type name and its message. -/
structure PyErr where
  ty : String
  msg : String
  deriving DecidableEq, Repr

/-- `f"{type(e).__name__}: {e}"` — the failure description stored in
`ExecutionResult.error`. -/
def PyErr.describe (e : PyErr) : String :=
  e.ty ++ ": " ++ e.msg

/-- Model of `traceback.format_exc()` written to the stderr buffer when a
fault is caught: the trace text is opaque, but it names the fault. -/
def formatTraceback (e : PyErr) : String :=
  "Traceback (most recent call last):\n" ++ e.ty ++ ": " ++ e.msg ++ "\n"

/-- One entry of the call log (`call_record` in `_make_tool_wrapper`). -/
structure CallRecord where
  name : String
  args : List Value
  kwargs : List (String × Value)
  result : Value
  deriving DecidableEq, Repr

/-- `ExecutionResult` from executor.py.  `return_value : Value` with
default `vnone` mirrors the Python field `return_value: Any = None`
(Python conflates "absent" with the value `None`). -/
structure ExecutionResult where
  output : String := ""
  error_output : String := ""
  return_value : Value := .vnone
  tool_calls : List CallRecord := []
  success : Bool := true
  error : Option String := none
  deriving DecidableEq, Repr

/-- `ExecutionResult.to_string`.  Python truthiness: an empty string is
falsy, so `self.error_output or (self.error or "Unknown error")` falls
through both on `None` and on the empty string. -/
def ExecutionResult.to_string (r : ExecutionResult) : String :=
  if r.success then
    if r.output ≠ "" then r.output
    else if r.return_value ≠ .vnone then reprValue r.return_value
    else ""
  else if r.error_output ≠ "" then r.error_output
  else
    match r.error with
    | some e => if e ≠ "" then e else "Unknown error"
    | none => "Unknown error"

/-! ## Import guard -/

/-- `_SAFE_MODULES` from executor.py, verbatim. -/
def SAFE_MODULES : List String :=
  ["asyncio", "json", "math", "re", "datetime", "time", "calendar",
   "collections", "itertools", "functools", "operator", "bisect", "heapq",
   "typing", "types", "dataclasses", "enum", "abc",
   "string", "textwrap", "pprint", "copy", "io",
   "random", "statistics", "decimal", "fractions",
   "base64", "hashlib", "uuid",
   "urllib.parse", "concurrent.futures"]

/-- `mod.split(".")[0]`: the characters before the first dot. -/
def headComponent (mod : String) : String :=
  String.mk (mod.data.takeWhile (fun c => c ≠ Char.ofNat 46))

/-- `_SAFE_PARENT_PACKAGES`: first components of the dotted allowlist
entries (as a list rather than a set; only membership matters). -/
def SAFE_PARENT_PACKAGES : List String :=
  (SAFE_MODULES.filter (fun mod => mod.data.contains (Char.ofNat 46))).map headComponent

/-- Python string `<=`: lexicographic on code points. -/
def strLeChars : List Char → List Char → Bool
  | [], _ => true
  | _ :: _, [] => false
  | a :: as, b :: bs =>
      if a.toNat < b.toNat then true
      else if b.toNat < a.toNat then false
      else strLeChars as bs

/-- Python string `<=` on `String`. -/
def strLe (a b : String) : Bool :=
  strLeChars a.data b.data

/-- Insert into a `strLe`-sorted list, keeping it sorted. -/
def insertSorted (x : String) : List String → List String
  | [] => [x]
  | y :: ys => if strLe x y then x :: y :: ys else y :: insertSorted x ys

/-- Insertion sort by `strLe` — the model of Python `sorted` (on the
distinct strings of the allowlist every comparison sort agrees). -/
def sortStrs : List String → List String
  | [] => []
  | x :: xs => insertSorted x (sortStrs xs)

/-- `sorted(_SAFE_MODULES)`. -/
def sortedModules : List String :=
  sortStrs SAFE_MODULES

/-- The rejection message for a disallowed top-level module name. -/
def importDeniedMsg (name : String) : String :=
  "Import of \x27" ++ name ++ "\x27 is not allowed. " ++
    "Available modules: " ++ String.intercalate ", " sortedModules

/-- `_safe_import` from executor.py.  `Except String Unit`: `ok` models
delegation to the real loader `builtins.__import__`, `error` models the
raised `ImportError` with its message. -/
def safeImport (name : String) (level : Nat) : Except String Unit :=
  if level ≠ 0 then .error "Relative imports are not allowed"
  else if name ∈ SAFE_MODULES then .ok ()
  else if name ∈ SAFE_PARENT_PACKAGES then .ok ()
  else .error (importDeniedMsg name)

/-- Does `pat` occur as a contiguous sublist of `s`? -/
def occursIn (pat : List Char) : List Char → Bool
  | [] => pat.isEmpty
  | c :: rest => pat.isPrefixOf (c :: rest) || occursIn pat rest

/-- Substring occurrence test (Python `pat in s`). -/
def strOccurs (s pat : String) : Bool :=
  occursIn pat.data s.data

instance {ε α : Type} [DecidableEq ε] [DecidableEq α] :
    DecidableEq (Except ε α) := fun a b =>
  match a, b with
  | .ok x, .ok y =>
      if h : x = y then .isTrue (by rw [h]) else .isFalse (by simp [h])
  | .error x, .error y =>
      if h : x = y then .isTrue (by rw [h]) else .isFalse (by simp [h])
  | .ok _, .error _ => .isFalse (by simp)
  | .error _, .ok _ => .isFalse (by simp)

/-! ## Capabilities and the call-logging wrapper -/

/-- What calling `tool.fn(*args, **kwargs)` produces when it does not
raise: either a plain value, or a coroutine (`asyncio.iscoroutine`)
whose resolution by `asyncio.run` — directly, or on a worker thread when
an event loop is already running — itself either yields a value or
raises. -/
inductive RawResult where
  | plain (v : Value)
  | coro (resolved : Except PyErr Value)

/-- A capability as the engine sees it: name, description, underlying
callable.  The callable is a pure Lean function: the deterministic,
side-effect-free case of the contract. -/
structure Tool where
  name : String
  description : String := ""
  fn : List Value → List (String × Value) → Except PyErr RawResult

/-- Resolving a raw callable result to a plain value: `asyncio.run` on a
coroutine (in either ambient-loop branch), identity otherwise. -/
def resolveResult : RawResult → Except PyErr Value
  | .plain v => .ok v
  | .coro r => r

/-- `_make_tool_wrapper`, as a function of the incoming call log: invoke
the callable, resolve an asynchronous result, then append the call
record and return the resolved value.  A raise at either step propagates
(`error`) with the log untouched. -/
def toolWrapper (tool : Tool) (args : List Value)
    (kwargs : List (String × Value)) (log : List CallRecord) :
    Except PyErr Value × List CallRecord :=
  match tool.fn args kwargs with
  | .error e => (.error e, log)
  | .ok raw =>
      match resolveResult raw with
      | .error e => (.error e, log)
      | .ok v => (.ok v, log ++ [⟨tool.name, args, kwargs, v⟩])

/-! ## Scripts

The statement/expression language the supervisor runs.  A script that
`ast.parse` rejects is `Script.invalid`; otherwise it is the list of its
top-level statements. -/

/-- Expressions (always terminating; capability calls may raise). -/
inductive Expr where
  | lit (v : Value)
  | var (x : String)
  | callTool (name : String) (args : List Value) (kwargs : List (String × Value))
  deriving DecidableEq

/-- Top-level statements.  `exprStmt` is a bare expression statement
(`ast.Expr`); `diverge` is a statement that never terminates (e.g.
`while True: pass`). -/
inductive Stmt where
  | exprStmt (e : Expr)
  | assign (x : String) (e : Expr)
  | printStmt (s : String)
  | importStmt (name : String) (level : Nat)
  | raiseStmt (ty msg : String)
  | diverge
  deriving DecidableEq

/-- The outcome of `ast.parse`. -/
inductive Script where
  | invalid (msg : String)
  | parsed (stmts : List Stmt)

/-- The script splitter: if the last top-level statement is a bare
expression, pop it and retain it separately; otherwise run everything as
the body.  (`tree.body.pop()` / `ast.unparse`.) -/
def splitScript (stmts : List Stmt) : List Stmt × Option Expr :=
  match stmts.getLast? with
  | some (.exprStmt e) => (stmts.dropLast, some e)
  | _ => (stmts, none)

/-! ## Execution state and semantics -/

/-- The per-execution mutable state: the two capture buffers, the call
log, and the restricted namespace (`namespace` in executor.py; tool
wrappers are looked up via the tool table, variables here). -/
structure ExecState where
  stdout : String
  stderr : String
  log : List CallRecord
  ns : List (String × Value)
  deriving DecidableEq

/-- The fresh state each call of `execute_code` builds. -/
def initState : ExecState := ⟨"", "", [], []⟩

/-- First tool of the table with the given name. -/
def lookupTool (tools : List Tool) (name : String) : Option Tool :=
  tools.find? (fun t => t.name == name)

/-- Evaluating an expression in a state: a raise leaves the state as it
was (the only mutation an expression can make, appending a call record,
happens only when the call succeeds). -/
def evalExpr (tools : List Tool) (e : Expr) (st : ExecState) :
    Except PyErr (Value × ExecState) :=
  match e with
  | .lit v => .ok (v, st)
  | .var x =>
      match st.ns.lookup x with
      | some v => .ok (v, st)
      | none => .error ⟨"NameError", "name \x27" ++ x ++ "\x27 is not defined"⟩
  | .callTool name args kwargs =>
      match lookupTool tools name with
      | none => .error ⟨"NameError", "name \x27" ++ name ++ "\x27 is not defined"⟩
      | some tool =>
          match toolWrapper tool args kwargs st.log with
          | (.error e, _) => .error e
          | (.ok v, log2) => .ok (v, { st with log := log2 })

/-- Outcome of running one statement (or a prefix of the body): normal
completion, a raised fault (with the state at the raise), or a
statement that never returns (with the state reached before it hung). -/
inductive StepOutcome where
  | ok (st : ExecState)
  | raised (e : PyErr) (st : ExecState)
  | hung (st : ExecState)
  deriving DecidableEq

/-- One statement. -/
def runStmt (tools : List Tool) (s : Stmt) (st : ExecState) : StepOutcome :=
  match s with
  | .exprStmt e =>
      match evalExpr tools e st with
      | .ok (_, st2) => .ok st2
      | .error err => .raised err st
  | .assign x e =>
      match evalExpr tools e st with
      | .ok (v, st2) => .ok { st2 with ns := (x, v) :: st2.ns }
      | .error err => .raised err st
  | .printStmt s =>
      .ok { st with stdout := st.stdout ++ s ++ "\n" }
  | .importStmt name level =>
      match safeImport name level with
      | .ok _ => .ok st
      | .error msg => .raised ⟨"ImportError", msg⟩ st
  | .raiseStmt ty msg => .raised ⟨ty, msg⟩ st
  | .diverge => .hung st

/-- A statement sequence, stopping at the first raise or hang. -/
def runStmts (tools : List Tool) : List Stmt → ExecState → StepOutcome
  | [], st => .ok st
  | s :: rest, st =>
      match runStmt tools s st with
      | .ok st2 => runStmts tools rest st2
      | .raised e st2 => .raised e st2
      | .hung st2 => .hung st2

/-! ## The execution supervisor -/

/-- `f"Execution timed out after {timeout} seconds"` (the budget is a
whole number of seconds here; Python formats a float). -/
def timeoutMsg (timeout : Nat) : String :=
  "Execution timed out after " ++ toString timeout ++ " seconds"

/-- `f"SyntaxError: {e}"`. -/
def syntaxErrMsg (msg : String) : String :=
  "SyntaxError: " ++ msg

/-- `execute_code`: parse (short-circuit on failure), split off a
trailing bare expression, run the body then evaluate the trailing
expression in the same namespace under stdout/stderr redirection, and
assemble the result.

A hang of the body stands for the wall-clock budget elapsing.  Under the
interrupt-based strategy the alarm raises `_TimeoutError` inside `_run`,
whose handler sets `success`/`error` and writes no traceback; under the
worker-based strategy `thread.join(timeout)` returns with the worker
still alive and the outer code sets the same two fields.  Either way the
buffers and log hold what the script produced before the budget elapsed,
so the two strategies assemble the same result record and the strategy
choice is threaded separately (`executeCodeSig`). -/
def executeCode (tools : List Tool) (timeout : Nat) (script : Script) :
    ExecutionResult :=
  match script with
  | .invalid msg =>
      { output := "", error_output := syntaxErrMsg msg, return_value := .vnone,
        tool_calls := [], success := false, error := some (syntaxErrMsg msg) }
  | .parsed stmts =>
      let split := splitScript stmts
      match runStmts tools split.1 initState with
      | .hung st =>
          { output := st.stdout, error_output := st.stderr,
            return_value := .vnone, tool_calls := st.log,
            success := false, error := some (timeoutMsg timeout) }
      | .raised e st =>
          { output := st.stdout, error_output := st.stderr ++ formatTraceback e,
            return_value := .vnone, tool_calls := st.log,
            success := false, error := some e.describe }
      | .ok st =>
          match split.2 with
          | none =>
              { output := st.stdout, error_output := st.stderr,
                return_value := .vnone, tool_calls := st.log,
                success := true, error := none }
          | some e =>
              match evalExpr tools e st with
              | .error err =>
                  { output := st.stdout,
                    error_output := st.stderr ++ formatTraceback err,
                    return_value := .vnone, tool_calls := st.log,
                    success := false, error := some err.describe }
              | .ok (v, st2) =>
                  { output := st2.stdout, error_output := st2.stderr,
                    return_value := v, tool_calls := st2.log,
                    success := true, error := none }

/-- The process-wide SIGALRM state the interrupt-based strategy mutates:
the installed handler (opaque identifier) and the pending alarm. -/
structure SigState where
  handler : String
  alarm : Nat
  deriving DecidableEq

/-- `execute_code` with the strategy choice and the signal state made
explicit.  `useSignal` stands for the host condition
`SIGALRM available ∧ main thread ∧ no running event loop`.  On a parse
failure the function returns before the strategy is selected, so the
signal state is untouched.  Under the interrupt-based strategy the
`finally` block runs `signal.alarm(0)` and restores the saved handler on
every path out of `_run`; the worker-based strategy never touches the
signal state. -/
def executeCodeSig (tools : List Tool) (timeout : Nat) (script : Script)
    (useSignal : Bool) (sig : SigState) : ExecutionResult × SigState :=
  match script with
  | .invalid msg => (executeCode tools timeout (.invalid msg), sig)
  | .parsed stmts =>
      if useSignal then
        (executeCode tools timeout (.parsed stmts),
         { handler := sig.handler, alarm := 0 })
      else
        (executeCode tools timeout (.parsed stmts), sig)

/-! ## Issue-order projection of the call log

A syntactic traversal of a script computing, per statement, the call
records that statement appends when it completes without raising — used
to state that a completed execution logs its calls in issue order. -/

/-- Records an expression appends when its evaluation succeeds. -/
def exprCallRecords (tools : List Tool) : Expr → List CallRecord
  | .lit _ => []
  | .var _ => []
  | .callTool name args kwargs =>
      match lookupTool tools name with
      | none => []
      | some tool =>
          match toolWrapper tool args kwargs [] with
          | (.ok _, log) => log
          | (.error _, _) => []

/-- Records a statement appends when it completes without raising. -/
def stmtCallRecords (tools : List Tool) : Stmt → List CallRecord
  | .exprStmt e => exprCallRecords tools e
  | .assign _ e => exprCallRecords tools e
  | _ => []

/-- Records a statement sequence appends, in issue order. -/
def scriptCallRecords (tools : List Tool) : List Stmt → List CallRecord
  | [] => []
  | s :: rest => stmtCallRecords tools s ++ scriptCallRecords tools rest

/-! ## Concrete capabilities used to instantiate the theorems -/

/-- The capability `addNumbers(a, b) -> a + b` of the spec scenario. -/
def addNumbersTool : Tool :=
  { name := "addNumbers",
    fn := fun args _ =>
      match args with
      | [.vint a, .vint b] => .ok (.plain (.vint (a + b)))
      | _ => .error ⟨"TypeError", "addNumbers expects two ints"⟩ }

/-- A capability whose callable always raises. -/
def failTool : Tool :=
  { name := "alwaysFail",
    fn := fun _ _ => .error ⟨"ValueError", "boom"⟩ }

/-- An asynchronous capability: its callable returns a coroutine that
resolves to the value 5. -/
def asyncFiveTool : Tool :=
  { name := "asyncFive",
    fn := fun _ _ => .ok (.coro (.ok (.vint 5))) }

/-- A capability answering a fixed string. -/
def pingTool : Tool :=
  { name := "ping",
    fn := fun _ _ => .ok (.plain (.vstr "pong")) }

/-! ## Theorems -/

set_option maxRecDepth 1000000

lemma executeCodeSig_fst (tools : List Tool) (timeout : Nat) (script : Script)
    (useSignal : Bool) (sig : SigState) :
    (executeCodeSig tools timeout script useSignal sig).1 =
      executeCode tools timeout script := by
  cases script <;> cases useSignal <;> rfl

/-- Claim C3: for every script, capability table and timeout, the result of
`execute_code` has `success = false` iff its failure description
(`error` field) is present. -/
theorem result_success_iff_no_error (tools : List Tool) (timeout : Nat)
    (script : Script) :
    (executeCode tools timeout script).success = false ↔
      (executeCode tools timeout script).error.isSome := by
  cases script with
  | invalid msg => simp [executeCode]
  | parsed stmts =>
      simp only [executeCode]
      cases runStmts tools (splitScript stmts).1 initState with
      | hung st => simp
      | raised e st => simp
      | ok st =>
          cases (splitScript stmts).2 with
          | none => simp
          | some e =>
              cases h : evalExpr tools e st with
              | error err => simp [h]
              | ok p => cases p with | mk v st2 => simp [h]

/-- Claim C2: the to_string projection: on success, the captured stdout if
non-empty, else the printed form of the trailing value, else the empty
string; on failure with a (non-empty) failure description present, the
captured stderr if non-empty, else the failure description. -/
theorem to_string_spec (r : ExecutionResult) :
    (r.success = true →
      r.to_string =
        (if r.output ≠ "" then r.output
         else if r.return_value ≠ .vnone then reprValue r.return_value
         else "")) ∧
    (∀ e, r.success = false → r.error = some e → e ≠ "" →
      r.to_string = (if r.error_output ≠ "" then r.error_output else e)) := by
  constructor
  · intro hs
    simp [ExecutionResult.to_string, hs]
  · intro e hs he hne
    simp [ExecutionResult.to_string, hs, he, hne]

theorem to_string_spec_witness :
    (({ output := "", error_output := "", return_value := .vint 7,
        tool_calls := [], success := true, error := none } :
        ExecutionResult).to_string = "7") ∧
    (({ output := "", error_output := "boom trace", return_value := .vnone,
        tool_calls := [], success := false,
        error := some "ValueError: boom" } :
        ExecutionResult).to_string = "boom trace") := by
  constructor
  · have h := (to_string_spec
      { output := "", error_output := "", return_value := .vint 7,
        tool_calls := [], success := true, error := none }).1 rfl
    simpa using h
  · have h := (to_string_spec
      { output := "", error_output := "boom trace", return_value := .vnone,
        tool_calls := [], success := false,
        error := some "ValueError: boom" }).2 "ValueError: boom" rfl rfl
      (by decide)
    simpa using h

/-- Claim C6: a script that fails to parse short-circuits: the result is a
failure marking the syntax fault, with empty captured stdout, empty call
log, no trailing value — and it is independent of the capability table,
so no capability was invoked. -/
theorem syntax_error_short_circuit (tools : List Tool) (timeout : Nat)
    (msg : String) :
    executeCode tools timeout (.invalid msg) =
      { output := "", error_output := syntaxErrMsg msg, return_value := .vnone,
        tool_calls := [], success := false,
        error := some (syntaxErrMsg msg) } ∧
    executeCode tools timeout (.invalid msg) =
      executeCode [] timeout (.invalid msg) := by
  exact ⟨rfl, rfl⟩

/-- Claim C1, counterexample: the claim says every rejection's message
enumerates the full allowed module set, but a relative (level ≠ 0)
request is rejected with the fixed message "Relative imports are not
allowed", which does not even mention the allowlisted module `json`. -/
theorem relative_import_message_no_enumeration :
    safeImport "os" 1 = .error "Relative imports are not allowed" ∧
    "json" ∈ SAFE_MODULES ∧
    strOccurs "Relative imports are not allowed" "json" = false := by
  refine ⟨by decide, by decide, by decide⟩

/-- Claim C1, amended: the guard accepts iff the request is top-level and the
name is exactly allowlisted or a parent package of an allowlisted dotted
name; a non-top-level request is rejected with the fixed message
"Relative imports are not allowed"; a rejected top-level name gets the
message enumerating the allowed set, which lists the allowlist sorted
(code-point order, every allowlisted module, nothing else). -/
theorem safe_import_spec :
    (∀ name level, safeImport name level = .ok () ↔
      level = 0 ∧ (name ∈ SAFE_MODULES ∨ name ∈ SAFE_PARENT_PACKAGES)) ∧
    (∀ name level, level ≠ 0 →
      safeImport name level = .error "Relative imports are not allowed") ∧
    (∀ name, name ∉ SAFE_MODULES → name ∉ SAFE_PARENT_PACKAGES →
      safeImport name 0 = .error (importDeniedMsg name)) ∧
    List.Pairwise (fun a b => strLe a b = true) sortedModules ∧
    sortedModules.Perm SAFE_MODULES := by
  refine ⟨?_, ?_, ?_, by decide, by decide⟩
  · intro name level
    unfold safeImport
    by_cases hl : level = 0
    · by_cases h1 : name ∈ SAFE_MODULES <;>
        by_cases h2 : name ∈ SAFE_PARENT_PACKAGES <;>
          simp [hl, h1, h2]
    · simp [hl]
  · intro name level hl
    unfold safeImport
    simp [hl]
  · intro name h1 h2
    unfold safeImport
    simp [h1, h2]

theorem safe_import_spec_witness :
    safeImport "math" 0 = .ok () ∧
    safeImport "urllib" 0 = .ok () ∧
    safeImport "math" 1 = .error "Relative imports are not allowed" ∧
    safeImport "socket" 0 = .error (importDeniedMsg "socket") := by
  refine ⟨?_, ?_, ?_, ?_⟩
  · exact (safe_import_spec.1 "math" 0).2 (by decide)
  · exact (safe_import_spec.1 "urllib" 0).2 (by decide)
  · exact safe_import_spec.2.1 "math" 1 (by decide)
  · exact safe_import_spec.2.2.1 "socket" (by decide) (by decide)

/-- Claim C5: a capability invocation through the wrapper: if the underlying
callable raises, or resolving its asynchronous result raises, the fault
propagates and the log is untouched; if it returns, the resolved value
is returned to the script and exactly one record `(name, args, kwargs,
resolved result)` is appended. -/
theorem tool_wrapper_spec (tool : Tool) (args : List Value)
    (kwargs : List (String × Value)) (log : List CallRecord) :
    (∀ e, tool.fn args kwargs = .error e →
      toolWrapper tool args kwargs log = (.error e, log)) ∧
    (∀ raw e, tool.fn args kwargs = .ok raw → resolveResult raw = .error e →
      toolWrapper tool args kwargs log = (.error e, log)) ∧
    (∀ raw v, tool.fn args kwargs = .ok raw → resolveResult raw = .ok v →
      toolWrapper tool args kwargs log =
        (.ok v, log ++ [⟨tool.name, args, kwargs, v⟩])) := by
  refine ⟨?_, ?_, ?_⟩
  · intro e h
    simp [toolWrapper, h]
  · intro raw e h1 h2
    simp [toolWrapper, h1, h2]
  · intro raw v h1 h2
    simp [toolWrapper, h1, h2]

theorem tool_wrapper_spec_witness :
    toolWrapper failTool [.vint 1] [] [] =
      (.error ⟨"ValueError", "boom"⟩, []) ∧
    toolWrapper asyncFiveTool [] [("k", .vint 2)]
        [⟨"prev", [], [], .vnone⟩] =
      (.ok (.vint 5),
       [⟨"prev", [], [], .vnone⟩,
        ⟨"asyncFive", [], [("k", .vint 2)], .vint 5⟩]) := by
  constructor
  · exact (tool_wrapper_spec failTool [.vint 1] [] []).1
      ⟨"ValueError", "boom"⟩ rfl
  · exact (tool_wrapper_spec asyncFiveTool [] [("k", .vint 2)]
      [⟨"prev", [], [], .vnone⟩]).2.2 (.coro (.ok (.vint 5))) (.vint 5) rfl rfl

lemma toolWrapper_shift (tool : Tool) (args : List Value)
    (kwargs : List (String × Value)) (log : List CallRecord) :
    toolWrapper tool args kwargs log =
      ((toolWrapper tool args kwargs []).1,
        log ++ (toolWrapper tool args kwargs []).2) := by
  unfold toolWrapper
  cases h : tool.fn args kwargs with
  | error e => simp
  | ok raw =>
      cases h2 : resolveResult raw with
      | error e => simp [h2]
      | ok v => simp [h2]

lemma evalExpr_ok_state (tools : List Tool) (e : Expr) (st : ExecState)
    (v : Value) (st2 : ExecState)
    (h : evalExpr tools e st = .ok (v, st2)) :
    st2.log = st.log ++ exprCallRecords tools e ∧
    st2.stdout = st.stdout ∧ st2.stderr = st.stderr ∧ st2.ns = st.ns := by
  cases e with
  | lit w =>
      simp [evalExpr] at h
      simp [← h.2, exprCallRecords]
  | var x =>
      cases hl : st.ns.lookup x with
      | none => simp [evalExpr, hl] at h
      | some w =>
          simp [evalExpr, hl] at h
          simp [← h.2, exprCallRecords]
  | callTool name args kwargs =>
      cases hl : lookupTool tools name with
      | none => simp [evalExpr, hl] at h
      | some tool =>
          have hshift := toolWrapper_shift tool args kwargs st.log
          cases hw : toolWrapper tool args kwargs [] with
          | mk r newrecs =>
              rw [hw] at hshift
              cases r with
              | error err => simp [evalExpr, hl, hshift] at h
              | ok v0 =>
                  simp [evalExpr, hl, hshift] at h
                  simp [← h.2, exprCallRecords, hl, hw]

lemma runStmt_ok_log (tools : List Tool) (s : Stmt) (st st2 : ExecState)
    (h : runStmt tools s st = .ok st2) :
    st2.log = st.log ++ stmtCallRecords tools s := by
  cases s with
  | exprStmt e =>
      cases he : evalExpr tools e st with
      | error err => simp [runStmt, he] at h
      | ok p =>
          cases p with
          | mk v stx =>
              simp [runStmt, he] at h
              have hst := evalExpr_ok_state tools e st v stx he
              rw [← h]
              simp [stmtCallRecords, hst.1]
  | assign x e =>
      cases he : evalExpr tools e st with
      | error err => simp [runStmt, he] at h
      | ok p =>
          cases p with
          | mk v stx =>
              simp [runStmt, he] at h
              have hst := evalExpr_ok_state tools e st v stx he
              rw [← h]
              simp [stmtCallRecords, hst.1]
  | printStmt s =>
      simp [runStmt] at h
      simp [← h, stmtCallRecords]
  | importStmt name level =>
      cases hi : safeImport name level with
      | error msg => simp [runStmt, hi] at h
      | ok u =>
          simp [runStmt, hi] at h
          simp [← h, stmtCallRecords]
  | raiseStmt ty msg => simp [runStmt] at h
  | diverge => simp [runStmt] at h

lemma runStmts_ok_log (tools : List Tool) :
    ∀ (stmts : List Stmt) (st st2 : ExecState),
      runStmts tools stmts st = .ok st2 →
      st2.log = st.log ++ scriptCallRecords tools stmts := by
  intro stmts
  induction stmts with
  | nil =>
      intro st st2 h
      simp [runStmts] at h
      simp [← h, scriptCallRecords]
  | cons s rest ih =>
      intro st st2 h
      cases hs : runStmt tools s st with
      | ok st1 =>
          have h2 : runStmts tools rest st1 = .ok st2 := by
            simpa [runStmts, hs] using h
          have e1 := runStmt_ok_log tools s st st1 hs
          have e2 := ih st1 st2 h2
          simp [scriptCallRecords, e2, e1, List.append_assoc]
      | raised e st1 => simp [runStmts, hs] at h
      | hung st1 => simp [runStmts, hs] at h

lemma scriptCallRecords_append (tools : List Tool) (l1 l2 : List Stmt) :
    scriptCallRecords tools (l1 ++ l2) =
      scriptCallRecords tools l1 ++ scriptCallRecords tools l2 := by
  induction l1 with
  | nil => simp [scriptCallRecords]
  | cons s rest ih => simp [scriptCallRecords, ih]

lemma splitScript_cases (stmts : List Stmt) :
    splitScript stmts = (stmts, none) ∨
    ∃ e, splitScript stmts = (stmts.dropLast, some e) ∧
      stmts = stmts.dropLast ++ [Stmt.exprStmt e] := by
  unfold splitScript
  cases hl : stmts.getLast? with
  | none => exact Or.inl rfl
  | some s =>
      cases s with
      | exprStmt e =>
          refine Or.inr ⟨e, rfl, ?_⟩
          exact (List.dropLast_append_getLast? (Stmt.exprStmt e) hl).symm
      | assign x e => exact Or.inl rfl
      | printStmt s => exact Or.inl rfl
      | importStmt n l => exact Or.inl rfl
      | raiseStmt t m => exact Or.inl rfl
      | diverge => exact Or.inl rfl

/-- Claim C4: when the last top-level statement is a bare expression, the
splitter removes it from the statement sequence and retains it; the
remaining body runs fully first and then the trailing expression is
evaluated in the namespace the body produced, its value becoming the
result's trailing value. -/
theorem trailing_expression_captured (tools : List Tool) (timeout : Nat)
    (stmts : List Stmt) (e : Expr) (st st2 : ExecState) (v : Value)
    (hlast : stmts.getLast? = some (.exprStmt e))
    (hbody : runStmts tools stmts.dropLast initState = .ok st)
    (heval : evalExpr tools e st = .ok (v, st2)) :
    splitScript stmts = (stmts.dropLast, some e) ∧
    executeCode tools timeout (.parsed stmts) =
      { output := st2.stdout, error_output := st2.stderr, return_value := v,
        tool_calls := st2.log, success := true, error := none } := by
  have hsplit : splitScript stmts = (stmts.dropLast, some e) := by
    unfold splitScript
    rw [hlast]
  refine ⟨hsplit, ?_⟩
  simp only [executeCode, hsplit, hbody, heval]

theorem trailing_expression_captured_witness :
    executeCode [addNumbersTool] 30
        (.parsed [.exprStmt (.callTool "addNumbers" [.vint 3, .vint 4] [])]) =
      { output := "", error_output := "", return_value := .vint 7,
        tool_calls := [⟨"addNumbers", [.vint 3, .vint 4], [], .vint 7⟩],
        success := true, error := none } := by
  have h := trailing_expression_captured [addNumbersTool] 30
    [.exprStmt (.callTool "addNumbers" [.vint 3, .vint 4] [])]
    (.callTool "addNumbers" [.vint 3, .vint 4] []) initState
    ⟨"", "", [⟨"addNumbers", [.vint 3, .vint 4], [], .vint 7⟩], []⟩ (.vint 7)
    rfl rfl rfl
  exact h.2

/-- Claim C7: a completed (successful) execution logs exactly the records of
the capability calls the script issued, in issue order. -/
theorem call_log_issue_order (tools : List Tool) (timeout : Nat)
    (stmts : List Stmt)
    (h : (executeCode tools timeout (.parsed stmts)).success = true) :
    (executeCode tools timeout (.parsed stmts)).tool_calls =
      scriptCallRecords tools stmts ∧
    (executeCode tools timeout (.parsed stmts)).tool_calls.length =
      (scriptCallRecords tools stmts).length := by
  suffices hh : (executeCode tools timeout (.parsed stmts)).tool_calls =
      scriptCallRecords tools stmts by
    exact ⟨hh, by rw [hh]⟩
  rcases splitScript_cases stmts with hsp | ⟨e, hsp, hdecomp⟩
  · cases hr : runStmts tools stmts initState with
    | ok st =>
        have hlog := runStmts_ok_log tools stmts initState st hr
        simp only [executeCode, hsp, hr]
        simpa [initState] using hlog
    | raised err st =>
        simp only [executeCode, hsp, hr] at h
        exact Bool.noConfusion h
    | hung st =>
        simp only [executeCode, hsp, hr] at h
        exact Bool.noConfusion h
  · cases hr : runStmts tools stmts.dropLast initState with
    | ok st =>
        cases he : evalExpr tools e st with
        | error err =>
            simp only [executeCode, hsp, hr, he] at h
            exact Bool.noConfusion h
        | ok p =>
            cases p with
            | mk v st2 =>
                have hlog := runStmts_ok_log tools stmts.dropLast initState st hr
                have hexp := evalExpr_ok_state tools e st v st2 he
                simp only [executeCode, hsp, hr, he]
                rw [hexp.1, hlog]
                conv_rhs => rw [hdecomp]
                simp [scriptCallRecords_append, scriptCallRecords,
                  stmtCallRecords, initState]
    | raised err st =>
        simp only [executeCode, hsp, hr] at h
        exact Bool.noConfusion h
    | hung st =>
        simp only [executeCode, hsp, hr] at h
        exact Bool.noConfusion h

theorem call_log_issue_order_witness :
    ((executeCode [pingTool, addNumbersTool] 30
        (.parsed [.exprStmt (.callTool "ping" [] []),
                  .assign "x" (.callTool "addNumbers" [.vint 1, .vint 2] []),
                  .printStmt "done"])).success = true) ∧
    (executeCode [pingTool, addNumbersTool] 30
        (.parsed [.exprStmt (.callTool "ping" [] []),
                  .assign "x" (.callTool "addNumbers" [.vint 1, .vint 2] []),
                  .printStmt "done"])).tool_calls =
      [⟨"ping", [], [], .vstr "pong"⟩,
       ⟨"addNumbers", [.vint 1, .vint 2], [], .vint 3⟩] := by
  refine ⟨by decide, ?_⟩
  have h := (call_log_issue_order [pingTool, addNumbersTool] 30
    [.exprStmt (.callTool "ping" [] []),
     .assign "x" (.callTool "addNumbers" [.vint 1, .vint 2] []),
     .printStmt "done"] (by decide)).1
  rw [h]
  decide

/-- Claim C8: when the body hits the budget (modelled as a statement that
never returns), either strategy yields a failed result whose failure
description is the timeout message stating the configured budget; and
under the interrupt-based strategy, for every parsed script and every
outcome, the alarm is disarmed and the saved handler restored. -/
theorem timeout_reported_and_alarm_restored (tools : List Tool)
    (timeout : Nat) (stmts : List Stmt) (useSignal : Bool) (sig : SigState)
    (st : ExecState)
    (hhang : runStmts tools (splitScript stmts).1 initState = .hung st) :
    ((executeCodeSig tools timeout (.parsed stmts) useSignal sig).1.success
        = false ∧
     (executeCodeSig tools timeout (.parsed stmts) useSignal sig).1.error
        = some (timeoutMsg timeout)) ∧
    (∀ stmts2 : List Stmt, ∀ sig2 : SigState,
      (executeCodeSig tools timeout (.parsed stmts2) true sig2).2 =
        { handler := sig2.handler, alarm := 0 }) := by
  constructor
  · rw [executeCodeSig_fst]
    simp [executeCode, hhang]
  · intro stmts2 sig2
    rfl

theorem timeout_reported_witness :
    ((executeCodeSig [] 5 (.parsed [.diverge]) false ⟨"prev", 3⟩).1.success
        = false) ∧
    ((executeCodeSig [] 5 (.parsed [.diverge]) false ⟨"prev", 3⟩).1.error
        = some "Execution timed out after 5 seconds") ∧
    ((executeCodeSig [] 5 (.parsed [.diverge]) true ⟨"prev", 3⟩).2 =
        ⟨"prev", 0⟩) := by
  have h := timeout_reported_and_alarm_restored [] 5 [.diverge] false
    ⟨"prev", 3⟩ initState rfl
  exact ⟨h.1.1, h.1.2, h.2 [.diverge] ⟨"prev", 3⟩⟩

/-- Claim C9: with capabilities modelled as pure functions (the deterministic,
side-effect-free case), the result depends only on the script text, the
capability table, the budget and the strategy: re-running the same
inputs — in particular right after a previous execution, whatever
signal state that execution left — yields an identical result in
every field. -/
theorem execution_deterministic_no_leakage (tools : List Tool)
    (timeout : Nat) (script : Script) (useSignal : Bool) (sig : SigState) :
    (executeCodeSig tools timeout script useSignal sig).1 =
      executeCode tools timeout script ∧
    (executeCodeSig tools timeout script useSignal
        (executeCodeSig tools timeout script useSignal sig).2).1 =
      (executeCodeSig tools timeout script useSignal sig).1 ∧
    (∀ sig2, (executeCodeSig tools timeout script useSignal sig2).1 =
      (executeCodeSig tools timeout script useSignal sig).1) := by
  refine ⟨executeCodeSig_fst _ _ _ _ _, ?_, ?_⟩
  · rw [executeCodeSig_fst, executeCodeSig_fst]
  · intro sig2
    rw [executeCodeSig_fst, executeCodeSig_fst]

/-- Claim C10: under the worker-based strategy, a timed-out result retains the
stdout text, stderr text and call records the script produced before
the budget elapsed. -/
theorem worker_timeout_retains_partial_effects (tools : List Tool)
    (timeout : Nat) (stmts : List Stmt) (sig : SigState) (st : ExecState)
    (hhang : runStmts tools (splitScript stmts).1 initState = .hung st) :
    (executeCodeSig tools timeout (.parsed stmts) false sig).1 =
      { output := st.stdout, error_output := st.stderr,
        return_value := .vnone, tool_calls := st.log,
        success := false, error := some (timeoutMsg timeout) } := by
  rw [executeCodeSig_fst]
  simp only [executeCode, hhang]

theorem worker_timeout_retains_witness :
    (executeCodeSig [pingTool] 7
        (.parsed [.printStmt "partial",
                  .assign "r" (.callTool "ping" [] []),
                  .diverge]) false ⟨"h", 0⟩).1 =
      { output := "partial\n", error_output := "",
        return_value := .vnone,
        tool_calls := [⟨"ping", [], [], .vstr "pong"⟩],
        success := false,
        error := some "Execution timed out after 7 seconds" } := by
  have h := worker_timeout_retains_partial_effects [pingTool] 7
    [.printStmt "partial", .assign "r" (.callTool "ping" [] []), .diverge]
    ⟨"h", 0⟩
    ⟨"partial\n", "", [⟨"ping", [], [], .vstr "pong"⟩],
      [("r", Value.vstr "pong")]⟩ rfl
  exact h

end EzPtc
